import Mathlib

/-!
Verification of the landmower link-shortener front-end sources.

The repository's visible sources are the browser UI (`src/webui/src/api.ts`,
the form components in `src/unnamed/part_000` … `part_004`) plus the backend
manifest (`Cargo.toml`).  This file gives a shallow embedding of:

* the client-side form validators `validateLink` and `validateKey`
  (src/unnamed/part_000, lines 33–66), including a faithful model of the
  existential matching semantics of the URL regular expression
  `/[-a-zA-Z0-9@:%._\+~#=]{1,256}\.[a-zA-Z0-9()]{1,6}\b([-a-zA-Z0-9()@:%_\+.~#?&//=]*)/`;
* the `Jsend` response envelope and the five facade operations of
  `src/webui/src/api.ts` (request method/path and request-body marshalling);
* the backend link store and validation endpoints, whose Rust implementation
  is not among the visible sources and is therefore modelled from the spec.
-/

namespace Landmower

/-! ## Client-side validation results (src/unnamed/part_000, line 30) -/

/-- Embeds `type ValidationResult = { valid: true } | { valid: false, message: string }`. -/
inductive ValidationResult where
  | valid : ValidationResult
  | invalid (message : String) : ValidationResult
deriving DecidableEq, Repr

/-! ## Character classes of the regular expressions in src/unnamed/part_000 -/

/-- Characters of the class `[-a-zA-Z0-9@:%._\+~#=]` (first token of the URL
regex: the "host" token, matched 1 to 256 times). -/
def isUrlHostChar (c : Char) : Bool :=
  c = '-' || c.isAlpha || c.isDigit || c = '@' || c = ':' || c = '%' ||
  c = '.' || c = '_' || c = '+' || c = '~' || c = '#' || c = '='

/-- Characters of the class `[a-zA-Z0-9()]` (second token of the URL regex:
the "TLD" token, matched 1 to 6 times). -/
def isUrlTldChar (c : Char) : Bool :=
  c.isAlpha || c.isDigit || c = '(' || c = ')'

/-- JavaScript word characters `\w = [A-Za-z0-9_]`, used by the `\b`
word-boundary assertion in the URL regex. -/
def isWordChar (c : Char) : Bool :=
  c.isAlpha || c.isDigit || c = '_'

/-- Word-character test lifted to an optional character: the position beyond
either end of the string counts as a non-word character for `\b`. -/
def isWordOpt : Option Char → Bool
  | some c => isWordChar c
  | none => false

/-- Characters of the class `[a-z0-9\-]` of the key regex
`/^[a-z0-9\-]+$/` (src/unnamed/part_000, line 51). -/
def isKeyChar (c : Char) : Bool :=
  c.isLower || c.isDigit || c = '-'

/-- The anchored key regex `/^[a-z0-9\-]+$/`: the whole string is one or more
characters of the class `[a-z0-9\-]`. -/
def keyRegexTest (key : String) : Bool :=
  !key.data.isEmpty && key.data.all isKeyChar

/-! ## The URL-shape regular expression

`url_regex.test(url)` (src/unnamed/part_000, lines 37–38) succeeds iff some
substring of `url` can be decomposed as: 1–256 characters of the host class,
a literal dot, 1–6 characters of the TLD class, and a word boundary.  (The
trailing group `([-a-zA-Z0-9()@:%_\+.~#?&//=]*)` may always match the empty
string, so it never affects whether `test` succeeds.)  `urlRegexCheckAt`
checks one candidate decomposition, positioned by the start index `i` and the
two token lengths; `urlRegexTest` searches over all of them, which is the
backtracking/NFA semantics of an unanchored `RegExp.test`. -/

/-- Check the candidate match of the URL regex that starts at index `i`,
takes `alen` host-class characters, a dot, and `blen` TLD-class characters,
followed by a word boundary. -/
def urlRegexCheckAt (s : List Char) (i alen blen : Nat) : Bool :=
  let a := (s.drop i).take alen
  let rest := s.drop (i + alen)
  let b := (rest.drop 1).take blen
  let post := rest.drop (1 + blen)
  (a.length == alen) && a.all isUrlHostChar &&
  (rest.head? == some '.') &&
  (b.length == blen) && b.all isUrlTldChar &&
  (isWordOpt b.getLast? != isWordOpt post.head?)

/-- Existential match search of the unanchored URL regex over all start
positions and token lengths (host token 1–256 characters, TLD token 1–6). -/
def urlRegexTest (s : List Char) : Bool :=
  (List.range (s.length + 1)).any fun i =>
    (List.range' 1 (min 256 (s.length - i))).any fun alen =>
      (List.range' 1 6).any fun blen =>
        urlRegexCheckAt s i alen blen

/-- Declarative form of a successful match of the URL regex: the string
splits as `pre ++ a ++ '.' :: (b ++ post)` where `a` is a non-empty host
token of at most 256 characters, `b` a non-empty TLD token of at most 6
characters, and a word boundary separates `b` from `post`.  The per-token
length bounds and the absence of any scheme requirement are visible here. -/
def UrlMatch (s : List Char) : Prop :=
  ∃ pre a b post : List Char,
    s = pre ++ a ++ '.' :: (b ++ post) ∧
    a ≠ [] ∧ a.length ≤ 256 ∧ a.all isUrlHostChar = true ∧
    b ≠ [] ∧ b.length ≤ 6 ∧ b.all isUrlTldChar = true ∧
    isWordOpt b.getLast? ≠ isWordOpt post.head?

/-! ## The client-side validators (src/unnamed/part_000, lines 33–66) -/

/-- Embeds `validateLink` (lines 33–42): empty strings are rejected with
"URL cannot be empty", then the URL regex decides between valid and
"Invalid URL".  The function performs no network access. -/
def validateLink (url : String) : ValidationResult :=
  if url.length = 0 then .invalid "URL cannot be empty"
  else if urlRegexTest url.data then .valid
  else .invalid "Invalid URL"

/-- The syntactic portion of `validateKey` (lines 44–55): the length check
and the anchored character-class regex, before any storage access. -/
def validateKeySyntax (key : String) : ValidationResult :=
  if key.length < 3 then
    .invalid "Key needs to be at least 3 characters"
  else if !keyRegexTest key then
    .invalid "Key can only contain lowercase letters, numbers and hyphens (-)"
  else .valid

/-- Embeds `validateKey` (lines 44–66): the syntactic checks, then a lookup
`GET api/links/{key}` whose HTTP status decides the verdict — any status
other than 404 yields "Key already in use".  The lookup is modelled by the
oracle `status`, mapping the key to the HTTP status the server answers. -/
def validateKey (key : String) (status : String → Nat) : ValidationResult :=
  match validateKeySyntax key with
  | .invalid m => .invalid m
  | .valid =>
    if status key ≠ 404 then .invalid "Key already in use"
    else .valid

/-! ## The Jsend envelope and facade operations (src/webui/src/api.ts) -/

/-- Embeds `type Jsend<T, F>` (api.ts lines 3–5): a closed tagged union — `success`
with the operation's data, `fail` with structured validation data, `error`
with an opaque message string. -/
inductive Jsend (T F : Type) where
  | success (data : T)
  | fail (data : F)
  | error (data : String)
deriving DecidableEq, Repr

/-- The `metadata` record of an `Entry` (api.ts lines 8–11); timestamps are
serialized strings. -/
structure Metadata where
  used : Nat
  last_used : String
  created : String
deriving DecidableEq, Repr

/-- Embeds `type Entry` (api.ts lines 5–12): a stored key→link mapping with usage
metadata. -/
structure Entry where
  key : String
  link : String
  metadata : Metadata
deriving DecidableEq, Repr

/-- Embeds `AddLinkSuccessData` (api.ts line 15). -/
structure AddLinkSuccessData where
  key : String
  entry : Entry
deriving DecidableEq, Repr

/-- Embeds `AddLinkFailData` (api.ts line 16): field-attributed validation errors,
each field optional — `{ link?: string; key?: string }`. -/
structure AddLinkFailData where
  link : Option String
  key : Option String
deriving DecidableEq, Repr

/-- Embeds `AddLinkResponse` (api.ts line 14). -/
abbrev AddLinkResponse := Jsend AddLinkSuccessData AddLinkFailData

/-- Embeds `GetLinksResponse` (api.ts line 18); the `null` fail payload is `Unit`. -/
abbrev GetLinksResponse := Jsend (List Entry) Unit

/-- Embeds `GetLinkResponse` (api.ts line 19). -/
abbrev GetLinkResponse := Jsend Entry String

/-- Embeds `DeleteLinkResponse` (api.ts line 20); the `null` success payload is
`Unit`. -/
abbrev DeleteLinkResponse := Jsend Unit String

/-- Embeds `ValidateAddLinkResponse` (api.ts line 22); the `null` success payload is
`Unit`. -/
abbrev ValidateAddLinkResponse := Jsend Unit AddLinkFailData

/-- HTTP methods used by the five facade operations of api.ts. -/
inductive Method where
  | get
  | post
  | delete
deriving DecidableEq, Repr

/-- An HTTP request shape: method plus path relative to `VITE_SERVER_URL`. -/
structure Request where
  method : Method
  path : String
deriving DecidableEq, Repr

/-- The single request issued by `add_link` (api.ts line 25):
`POST api/links`. -/
def add_link_request : Request := ⟨.post, "api/links"⟩

/-- The single request issued by `get_links` (api.ts line 33):
`GET api/links`. -/
def get_links_request : Request := ⟨.get, "api/links"⟩

/-- The single request issued by `get_link(key)` (api.ts line 38):
`GET api/links/{key}`. -/
def get_link_request (key : String) : Request := ⟨.get, "api/links/" ++ key⟩

/-- The single request issued by `delete_link(key)` (api.ts line 43):
`DELETE api/links/{key}`. -/
def delete_link_request (key : String) : Request := ⟨.delete, "api/links/" ++ key⟩

/-- The single request issued by `validate_add_link` (api.ts line 48):
`POST api/validate/add_link`. -/
def validate_add_link_request : Request := ⟨.post, "api/validate/add_link"⟩

/-- The JSON body `{ link, key }` posted by `add_link` and
`validate_add_link`; an absent `key` (`undefined`) is `none`. -/
structure AddLinkBody where
  link : String
  key : Option String
deriving DecidableEq, Repr

/-- Body marshalling of `add_link` (api.ts lines 26–27):
`{ link: link, key: custom ? customName : undefined }`. -/
def add_link_body (link : String) (custom : Bool) (customName : String) :
    AddLinkBody :=
  ⟨link, if custom then some customName else none⟩

/-- Body marshalling of `validate_add_link` (api.ts lines 49–50):
`{ link: link, key: custom ? customName : undefined }`. -/
def validate_add_link_body (link : String) (custom : Bool) (customName : String) :
    AddLinkBody :=
  ⟨link, if custom then some customName else none⟩

/-! ## The backend Core, modelled from the spec

The Rust backend (link store, validator, key generator) is declared by
`Cargo.toml` but its sources are not part of the visible repository; the
definitions below are therefore modelled from the spec (§4.1–§4.5, §6, §7),
with the URL-shape pattern taken from the UI regex per the spec's
validation-parity requirement. -/

/-- Modelled from the spec: the Core's `validate_url` (§4.1) as a
field-attributed error — `Empty` for a zero-length candidate, `Malformed`
when the permissive URL-shape pattern does not match. -/
def linkFieldError (link : String) : Option String :=
  if link.length = 0 then some "Empty"
  else if !urlRegexTest link.data then some "Malformed"
  else none

/-- Modelled from the spec: the Core's `validate_key_syntax` (§4.1) followed
by the storage-aware uniqueness check (§4.3) — `TooShort` below 3
characters, `InvalidChars` when any character is outside `[a-z0-9-]`,
`KeyTaken` when the store already holds the key. -/
def keyFieldError (store : List Entry) (k : String) : Option String :=
  if k.length < 3 then some "TooShort"
  else if !(k.data.all isKeyChar) then some "InvalidChars"
  else if k ∈ store.map Entry.key then some "KeyTaken"
  else none

/-- Modelled from the spec: the backend dry-run endpoint behind
`POST api/validate/add_link` (§4.5, §6) — runs the same checks as add,
mutates nothing, and reports field-attributed failures. -/
def server_validate_add_link (store : List Entry) (link : String)
    (key : Option String) : ValidateAddLinkResponse :=
  let le := linkFieldError link
  let ke := match key with
    | none => none
    | some k => keyFieldError store k
  if le.isNone && ke.isNone then .success ()
  else .fail ⟨le, ke⟩

/-- Embeds `validate_add_link` (api.ts lines 47–53): marshals
`key: custom ? customName : undefined` and returns the backend's dry-run
verdict (the backend side is modelled from the spec). -/
def validate_add_link (store : List Entry) (link : String) (custom : Bool)
    (customName : String) : ValidateAddLinkResponse :=
  server_validate_add_link store link (if custom then some customName else none)

/-- Modelled from the spec: the Link Store's `add` (§4.2, §4.3, §7) behind
`POST api/links`.  A custom key is validated syntactically and for
uniqueness; with no custom key the Key Generator's bounded candidate list
`gen` is consulted and exhaustion is the operational `error` outcome.  The
check-and-insert is a single atomic unit, so the operation is a function
from the pre-state to the post-state and response. -/
def server_add_link (store : List Entry) (link : String) (key : Option String)
    (gen : List String) (meta : Metadata) : List Entry × AddLinkResponse :=
  match linkFieldError link with
  | some e => (store, .fail ⟨some e, none⟩)
  | none =>
    match key with
    | some k =>
      match keyFieldError store k with
      | some e => (store, .fail ⟨none, some e⟩)
      | none =>
        let entry : Entry := ⟨k, link, meta⟩
        (store ++ [entry], .success ⟨k, entry⟩)
    | none =>
      match gen.find? (fun g => decide (g ∉ store.map Entry.key)) with
      | some k =>
        let entry : Entry := ⟨k, link, meta⟩
        (store ++ [entry], .success ⟨k, entry⟩)
      | none => (store, .error "GenerationExhausted")

/-- Modelled from the spec: the Link Store's `delete` (§4.3) behind
`DELETE api/links/{key}` — removes the entry atomically, or fails with
`NotFound`. -/
def server_delete_link (store : List Entry) (k : String) :
    List Entry × DeleteLinkResponse :=
  if k ∈ store.map Entry.key then
    (store.filter (fun e => !(e.key == k)), .success ())
  else (store, .fail "NotFound")

/-- Store states reachable from the empty store at startup by any sequence
of add and delete operations (reads mutate nothing). -/
inductive ReachableStore : List Entry → Prop where
  | init : ReachableStore []
  | add (link : String) (key : Option String) (gen : List String)
      (meta : Metadata) {s : List Entry} (h : ReachableStore s) :
      ReachableStore (server_add_link s link key gen meta).1
  | del (k : String) {s : List Entry} (h : ReachableStore s) :
      ReachableStore (server_delete_link s k).1

/-- The executable match search agrees with the declarative decomposition form
of the URL regex: `RegExp.test` succeeds exactly when some substring splits
into a bounded host token, a dot, a bounded TLD token and a word boundary. -/
theorem urlRegexTest_eq_true_iff (s : List Char) :
    urlRegexTest s = true ↔ UrlMatch s := by
  constructor
  · intro h
    simp only [urlRegexTest, List.any_eq_true] at h
    obtain ⟨i, hi, alen, halen, blen, hblen, hc⟩ := h
    rw [List.mem_range] at hi
    rw [List.mem_range'_1] at halen hblen
    simp only [urlRegexCheckAt, Bool.and_eq_true, beq_iff_eq, bne_iff_ne] at hc
    obtain ⟨⟨⟨⟨⟨h1, h2⟩, h3⟩, h4⟩, h5⟩, h6⟩ := hc
    cases hr : s.drop (i + alen) with
    | nil => rw [hr] at h3; simp at h3
    | cons c t =>
      rw [hr] at h3 h4 h5 h6
      simp only [List.head?_cons, Option.some.injEq] at h3
      subst h3
      have hd1 : List.drop 1 ('.' :: t) = t := by
        simp [List.drop_one]
      have hpost : List.drop (1 + blen) ('.' :: t) = List.drop blen t := by
        rw [Nat.add_comm]; exact List.drop_succ_cons
      rw [hd1] at h4 h5 h6
      rw [hpost] at h6
      refine ⟨s.take i, (s.drop i).take alen, t.take blen, t.drop blen,
        ?_, ?_, ?_, h2, ?_, ?_, h5, h6⟩
      · have e1 : s.take i ++ s.drop i = s := List.take_append_drop i s
        have e2 : (s.drop i).take alen ++ (s.drop i).drop alen = s.drop i :=
          List.take_append_drop alen (s.drop i)
        have e3 : (s.drop i).drop alen = s.drop (i + alen) := by
          rw [List.drop_drop]
        have e4 : t.take blen ++ t.drop blen = t := List.take_append_drop blen t
        calc s = s.take i ++ s.drop i := e1.symm
          _ = s.take i ++ ((s.drop i).take alen ++ (s.drop i).drop alen) := by rw [e2]
          _ = s.take i ++ ((s.drop i).take alen ++ ('.' :: t)) := by rw [e3, hr]
          _ = s.take i ++ ((s.drop i).take alen ++ ('.' :: (t.take blen ++ t.drop blen))) := by
                rw [e4]
          _ = s.take i ++ (s.drop i).take alen ++ '.' :: (t.take blen ++ t.drop blen) := by
                rw [List.append_assoc]
      · exact List.ne_nil_of_length_pos (by rw [h1]; omega)
      · rw [h1]
        have := Nat.min_le_left 256 (s.length - i)
        omega
      · exact List.ne_nil_of_length_pos (by rw [h4]; omega)
      · rw [h4]; omega
  · rintro ⟨pre, a, b, post, hs, ha0, ha256, haall, hb0, hb6, hball, hbd⟩
    simp only [urlRegexTest, List.any_eq_true]
    have hlen : s.length = pre.length + a.length + 1 + (b.length + post.length) := by
      rw [hs]; simp [List.length_append]; omega
    have hdrop1 : s.drop pre.length = a ++ '.' :: (b ++ post) := by
      rw [hs, List.append_assoc]
      exact List.drop_left pre (a ++ '.' :: (b ++ post))
    have hdrop2 : s.drop (pre.length + a.length) = '.' :: (b ++ post) := by
      rw [hs, ← List.length_append]
      exact List.drop_left (pre ++ a) ('.' :: (b ++ post))
    refine ⟨pre.length, ?_, a.length, ?_, b.length, ?_, ?_⟩
    · rw [List.mem_range]; omega
    · rw [List.mem_range'_1]
      constructor
      · have := List.length_pos.mpr ha0; omega
      · have h2 : a.length ≤ min 256 (s.length - pre.length) := by
          rw [Nat.le_min]
          exact ⟨ha256, by omega⟩
        omega
    · rw [List.mem_range'_1]
      have := List.length_pos.mpr hb0
      omega
    · simp only [urlRegexCheckAt, hdrop1, hdrop2, Bool.and_eq_true, beq_iff_eq, bne_iff_ne]
      have ht : (a ++ '.' :: (b ++ post)).take a.length = a := List.take_left a _
      have hd1 : List.drop 1 ('.' :: (b ++ post)) = b ++ post := by simp [List.drop_one]
      have hpost : List.drop (1 + b.length) ('.' :: (b ++ post)) = post := by
        rw [Nat.add_comm]
        rw [List.drop_succ_cons]
        exact List.drop_left b post
      rw [ht, hd1, hpost]
      have htb : (b ++ post).take b.length = b := List.take_left b post
      rw [htb]
      exact ⟨⟨⟨⟨⟨rfl, haall⟩, rfl⟩, rfl⟩, hball⟩, hbd⟩

/-- For candidates long enough to pass the length check, the anchored key
regex succeeds exactly when every character is in `[a-z0-9-]`. -/
theorem keyRegexTest_of_three_le (key : String) (h : 3 ≤ key.length) :
    keyRegexTest key = true ↔ key.data.all isKeyChar = true := by
  have hlen : key.length = key.data.length := rfl
  have hne : key.data.isEmpty = false := by
    cases hd : key.data with
    | nil => rw [hlen, hd] at h; simp at h
    | cons c t => rfl
  simp [keyRegexTest, hne]

/-- C1: key-syntax validation fails with the too-short message exactly when
the candidate has fewer than 3 characters; otherwise it fails with the
invalid-characters message exactly when some character is outside
`[a-z0-9-]`; a candidate of length at least 3 all of whose characters are in
`[a-z0-9-]` passes. -/
theorem validateKeySyntax_spec (key : String) :
    (validateKeySyntax key = .invalid "Key needs to be at least 3 characters" ↔
      key.length < 3) ∧
    (validateKeySyntax key = .invalid
        "Key can only contain lowercase letters, numbers and hyphens (-)" ↔
      (3 ≤ key.length ∧ ¬ key.data.all isKeyChar = true)) ∧
    (validateKeySyntax key = .valid ↔
      (3 ≤ key.length ∧ key.data.all isKeyChar = true)) := by
  have hmsg : ("Key needs to be at least 3 characters" : String) ≠
      "Key can only contain lowercase letters, numbers and hyphens (-)" := by decide
  by_cases h3 : key.length < 3
  · refine ⟨by simp [validateKeySyntax, h3], ?_, ?_⟩
    · constructor
      · intro heq
        simp only [validateKeySyntax, if_pos h3, ValidationResult.invalid.injEq] at heq
        exact absurd heq hmsg
      · rintro ⟨hge, -⟩
        omega
    · constructor
      · intro heq
        simp [validateKeySyntax, if_pos h3] at heq
      · rintro ⟨hge, -⟩
        omega
  · have hge : 3 ≤ key.length := by omega
    have hiff := keyRegexTest_of_three_le key hge
    by_cases hall : key.data.all isKeyChar = true
    · have hk : keyRegexTest key = true := hiff.mpr hall
      refine ⟨?_, ?_, ?_⟩
      · simp [validateKeySyntax, h3, hk]
      · simp [validateKeySyntax, h3, hk, hall]
      · simp [validateKeySyntax, h3, hk, hge, hall]
    · have hk : keyRegexTest key = false := by
        cases hkk : keyRegexTest key with
        | true => exact absurd (hiff.mp hkk) hall
        | false => rfl
      refine ⟨?_, ?_, ?_⟩
      · constructor
        · intro heq
          simp only [validateKeySyntax, if_neg h3, hk] at heq
          simp only [Bool.not_false, if_pos] at heq
          rw [ValidationResult.invalid.injEq] at heq
          exact absurd heq.symm hmsg
        · intro hlt
          omega
      · simp [validateKeySyntax, h3, hk, hge, hall]
      · simp [validateKeySyntax, h3, hk, hall]

/-- C2: URL validation rejects the empty string with the empty-URL message;
a non-empty candidate is rejected with the invalid-URL message exactly when
no substring of it matches the URL-shape pattern (whose per-token bounds,
256 for the host token and 6 for the TLD token, appear in `UrlMatch`); any
string with such a substring passes, including the scheme-less
"example.com". -/
theorem validateLink_spec (url : String) :
    (validateLink url = .invalid "URL cannot be empty" ↔ url.length = 0) ∧
    (validateLink url = .invalid "Invalid URL" ↔
      (url.length ≠ 0 ∧ ¬ UrlMatch url.data)) ∧
    (validateLink url = .valid ↔ (url.length ≠ 0 ∧ UrlMatch url.data)) ∧
    validateLink "example.com" = .valid := by
  have hmsg : ("URL cannot be empty" : String) ≠ "Invalid URL" := by decide
  have hex : validateLink "example.com" = .valid := by decide
  by_cases h0 : url.length = 0
  · refine ⟨by simp [validateLink, h0], ?_, ?_, hex⟩
    · constructor
      · intro heq
        simp only [validateLink, if_pos h0, ValidationResult.invalid.injEq] at heq
        exact absurd heq hmsg
      · rintro ⟨hne, -⟩
        exact absurd h0 hne
    · constructor
      · intro heq
        simp [validateLink, if_pos h0] at heq
      · rintro ⟨hne, -⟩
        exact absurd h0 hne
  · have hiff := urlRegexTest_eq_true_iff url.data
    by_cases hm : urlRegexTest url.data = true
    · have hu : UrlMatch url.data := hiff.mp hm
      refine ⟨?_, ?_, ?_, hex⟩
      · simp [validateLink, h0, hm]
      · simp [validateLink, h0, hm, hu]
      · simp [validateLink, h0, hm, hu]
    · have hu : ¬ UrlMatch url.data := fun h => hm (hiff.mpr h)
      have hmf : urlRegexTest url.data = false := by simpa using hm
      have hv : validateLink url = .invalid "Invalid URL" := by
        simp [validateLink, h0, hmf]
      refine ⟨?_, ?_, ?_, hex⟩
      · rw [hv]
        constructor
        · intro heq
          rw [ValidationResult.invalid.injEq] at heq
          exact absurd heq.symm hmsg
        · intro hh
          exact absurd hh h0
      · rw [hv]
        simp [h0, hu]
      · rw [hv]
        simp [hu]

/-- C3 counterexample: `validateKey` is not purely syntactic — on the same
candidate "abc" its verdict differs between a store whose lookup answers 404
and one whose lookup answers 500, so the verdict does not depend only on the
candidate and the check does perform a storage lookup. -/
theorem validateKey_not_storage_free :
    validateKey "abc" (fun _ => 404) = .valid ∧
    validateKey "abc" (fun _ => 500) = .invalid "Key already in use" ∧
    validateKey "abc" (fun _ => 404) ≠ validateKey "abc" (fun _ => 500) := by
  refine ⟨by decide, by decide, by decide⟩

/-- C3 amended: the syntactic portion of `validateKey` (the length and
character-set checks) is purely syntactic — whenever it rejects, the verdict
of `validateKey` equals the syntactic verdict and is the same for every
storage oracle; but for syntactically valid candidates `validateKey` consults
the storage lookup and its verdict is determined by the response status. -/
theorem validateKey_syntax_portion_pure (key : String) (g₁ g₂ : String → Nat) :
    (validateKeySyntax key ≠ .valid →
      validateKey key g₁ = validateKeySyntax key ∧
      validateKey key g₁ = validateKey key g₂) ∧
    (validateKeySyntax key = .valid →
      (validateKey key g₁ = .valid ↔ g₁ key = 404)) := by
  constructor
  · intro h
    cases hv : validateKeySyntax key with
    | valid => exact absurd hv h
    | invalid m => simp [validateKey, hv]
  · intro hv
    unfold validateKey
    rw [hv]
    by_cases hs : g₁ key = 404 <;> simp [hs]

/-- Witness for `validateKey_syntax_portion_pure` at the concrete candidates
"a!" (syntactically rejected, verdict independent of storage) and "abc"
(syntactically valid, verdict 404-determined). -/
theorem validateKey_syntax_portion_pure_witness :
    validateKey "a!" (fun _ => 200) = validateKey "a!" (fun _ => 404) ∧
    validateKey "abc" (fun _ => 404) = .valid :=
  ⟨((validateKey_syntax_portion_pure "a!" (fun _ => 200) (fun _ => 404)).1
      (by decide)).2,
   ((validateKey_syntax_portion_pure "abc" (fun _ => 404) (fun _ => 404)).2
      (by decide)).mpr rfl⟩

/-- C9: for a syntactically valid key, the preview path's uniqueness check
treats every lookup status other than 404 — server failures included — as
"Key already in use", and passes exactly on a 404 response. -/
theorem validateKey_nonNotFound_is_taken (key : String) (status : String → Nat)
    (h : validateKeySyntax key = .valid) :
    (status key ≠ 404 → validateKey key status = .invalid "Key already in use") ∧
    (validateKey key status = .valid ↔ status key = 404) := by
  unfold validateKey
  rw [h]
  constructor
  · intro hne
    rw [if_pos hne]
  · by_cases hs : status key = 404 <;> simp [hs]

/-- Witness for `validateKey_nonNotFound_is_taken`: a 500 server failure on
the lookup of "abc" is reported as key-taken; 404 yields a valid verdict. -/
theorem validateKey_nonNotFound_is_taken_witness :
    validateKey "abc" (fun _ => 500) = .invalid "Key already in use" ∧
    validateKey "my-key2" (fun _ => 404) = .valid :=
  ⟨(validateKey_nonNotFound_is_taken "abc" (fun _ => 500) (by decide)).1
      (by decide),
   (validateKey_nonNotFound_is_taken "my-key2" (fun _ => 404) (by decide)).2.mpr
      rfl⟩

/-- C10: the URL regex is unanchored — any string that contains a
host-token/dot/TLD-token substring matching the pattern passes
`validateLink`, whatever surrounds the substring. -/
theorem validateLink_unanchored (pre a b post : List Char)
    (ha0 : a ≠ []) (ha256 : a.length ≤ 256) (haall : a.all isUrlHostChar = true)
    (hb0 : b ≠ []) (hb6 : b.length ≤ 6) (hball : b.all isUrlTldChar = true)
    (hbd : isWordOpt b.getLast? ≠ isWordOpt post.head?) :
    validateLink (String.mk (pre ++ a ++ '.' :: (b ++ post))) = .valid := by
  have hm : UrlMatch (pre ++ a ++ '.' :: (b ++ post)) :=
    ⟨pre, a, b, post, rfl, ha0, ha256, haall, hb0, hb6, hball, hbd⟩
  have ht := (urlRegexTest_eq_true_iff _).mpr hm
  have hlen : (String.mk (pre ++ a ++ '.' :: (b ++ post))).length ≠ 0 := by
    show (pre ++ a ++ '.' :: (b ++ post)).length ≠ 0
    simp [List.length_append]
  unfold validateLink
  rw [if_neg hlen, if_pos ht]

/-- Witness for `validateLink_unanchored`: a sentence with spaces containing
"example.com" passes URL validation although it is not a URL as a whole. -/
theorem validateLink_unanchored_witness :
    validateLink (String.mk ("see ".data ++ "example".data ++
      '.' :: ("com".data ++ " for details".data))) = .valid :=
  validateLink_unanchored "see ".data "example".data "com".data " for details".data
    (by decide) (by decide) (by decide) (by decide) (by decide) (by decide)
    (by decide)

/-- The modelled key check passes exactly on a syntactically valid key that
is not yet in the store. -/
theorem keyFieldError_eq_none_iff {store : List Entry} {k : String} :
    keyFieldError store k = none ↔
      (3 ≤ k.length ∧ k.data.all isKeyChar = true ∧ k ∉ store.map Entry.key) := by
  unfold keyFieldError
  split_ifs with h1 h2 h3 <;> simp_all

/-- Adding never duplicates a key: the store's key list stays `Nodup`. -/
theorem nodup_server_add_link (s : List Entry) (link : String)
    (key : Option String) (gen : List String) (meta : Metadata)
    (h : (s.map Entry.key).Nodup) :
    ((server_add_link s link key gen meta).1.map Entry.key).Nodup := by
  cases hle : linkFieldError link with
  | some e => simp [server_add_link, hle, h]
  | none =>
    cases key with
    | some k =>
      cases hk : keyFieldError s k with
      | some e => simp [server_add_link, hle, hk, h]
      | none =>
        obtain ⟨-, -, hmem⟩ := keyFieldError_eq_none_iff.mp hk
        simp [server_add_link, hle, hk, List.map_append, List.nodup_append, h,
          hmem]
    | none =>
      cases hf : gen.find? (fun g => decide (g ∉ s.map Entry.key)) with
      | none =>
        simp only [server_add_link, hle]
        rw [hf]
        simpa using h
      | some k =>
        have hp := List.find?_some (p := fun g => decide (g ∉ s.map Entry.key)) hf
        have hmem : k ∉ s.map Entry.key := of_decide_eq_true hp
        simp only [server_add_link, hle]
        rw [hf]
        simp [List.map_append, List.nodup_append, h, hmem]

/-- Deleting keeps the store's key list `Nodup`. -/
theorem nodup_server_delete_link (s : List Entry) (k : String)
    (h : (s.map Entry.key).Nodup) :
    ((server_delete_link s k).1.map Entry.key).Nodup := by
  unfold server_delete_link
  split_ifs with hmem
  · have hsub : ((s.filter fun e => !(e.key == k)).map Entry.key).Sublist
        (s.map Entry.key) :=
      List.Sublist.map Entry.key (List.filter_sublist s)
    exact List.Nodup.sublist hsub h
  · exact h

/-- Every reachable store has pairwise distinct keys. -/
theorem reachable_keys_nodup (s : List Entry) (h : ReachableStore s) :
    (s.map Entry.key).Nodup := by
  induction h with
  | init => simp
  | add link key gen meta h ih => exact nodup_server_add_link _ _ _ _ _ ih
  | del k h ih => exact nodup_server_delete_link _ _ ih

/-- C4: every response of the five facade operations is exactly one of the
three tagged `Jsend` variants — success with the operation's data, fail with
structured data, or error with an opaque string; the fail payload of the
add/validate flows is a record of optional `link` and `key` field errors;
the modelled backend surfaces caller-correctable validation faults as `fail`
and the operational generation-exhausted fault as `error`. -/
theorem response_envelope_trichotomy :
    (∀ r : AddLinkResponse,
      (∃ d, r = .success d) ∨ (∃ f, r = .fail f) ∨ (∃ m, r = .error m)) ∧
    (∀ r : ValidateAddLinkResponse,
      (∃ d, r = .success d) ∨ (∃ f, r = .fail f) ∨ (∃ m, r = .error m)) ∧
    (∀ r : GetLinksResponse,
      (∃ d, r = .success d) ∨ (∃ f, r = .fail f) ∨ (∃ m, r = .error m)) ∧
    (∀ r : GetLinkResponse,
      (∃ d, r = .success d) ∨ (∃ f, r = .fail f) ∨ (∃ m, r = .error m)) ∧
    (∀ r : DeleteLinkResponse,
      (∃ d, r = .success d) ∨ (∃ f, r = .fail f) ∨ (∃ m, r = .error m)) ∧
    (∀ f : AddLinkFailData, ∃ l k : Option String, f = ⟨l, k⟩) ∧
    (∀ (store : List Entry) (link : String) (key : Option String),
      server_validate_add_link store link key = .success () ∨
      ∃ f, server_validate_add_link store link key = .fail f) ∧
    (∀ (store : List Entry) (link : String) (meta : Metadata),
      linkFieldError link = none →
      (server_add_link store link none [] meta).2 = .error "GenerationExhausted") := by
  refine ⟨?_, ?_, ?_, ?_, ?_, ?_, ?_, ?_⟩
  · intro r
    cases r with
    | success d => exact Or.inl ⟨d, rfl⟩
    | fail f => exact Or.inr (Or.inl ⟨f, rfl⟩)
    | error m => exact Or.inr (Or.inr ⟨m, rfl⟩)
  · intro r
    cases r with
    | success d => exact Or.inl ⟨d, rfl⟩
    | fail f => exact Or.inr (Or.inl ⟨f, rfl⟩)
    | error m => exact Or.inr (Or.inr ⟨m, rfl⟩)
  · intro r
    cases r with
    | success d => exact Or.inl ⟨d, rfl⟩
    | fail f => exact Or.inr (Or.inl ⟨f, rfl⟩)
    | error m => exact Or.inr (Or.inr ⟨m, rfl⟩)
  · intro r
    cases r with
    | success d => exact Or.inl ⟨d, rfl⟩
    | fail f => exact Or.inr (Or.inl ⟨f, rfl⟩)
    | error m => exact Or.inr (Or.inr ⟨m, rfl⟩)
  · intro r
    cases r with
    | success d => exact Or.inl ⟨d, rfl⟩
    | fail f => exact Or.inr (Or.inl ⟨f, rfl⟩)
    | error m => exact Or.inr (Or.inr ⟨m, rfl⟩)
  · intro f
    exact ⟨f.link, f.key, rfl⟩
  · intro store link key
    simp only [server_validate_add_link]
    split_ifs with h
    · exact Or.inl rfl
    · exact Or.inr ⟨_, rfl⟩
  · intro store link meta h
    simp [server_add_link, h]

/-- Witness for `response_envelope_trichotomy`: with a valid link, no custom
key and an exhausted generator budget, add surfaces the operational fault as
an `error` response. -/
theorem response_envelope_trichotomy_witness :
    (server_add_link [] "a.bc" none [] ⟨0, "", ""⟩).2 = .error "GenerationExhausted" :=
  response_envelope_trichotomy.2.2.2.2.2.2.2 [] "a.bc" ⟨0, "", ""⟩ (by decide)

/-- C5: the dry-run endpoint reports "not a url" (no custom key) as a fail
with only a `link` field error, and "https://example.com/x" with custom key
"ab" as a fail with only a `key` field error, namely `TooShort` — for every
store state. -/
theorem validate_add_link_parity (store : List Entry) :
    validate_add_link store "not a url" false "" = .fail ⟨some "Malformed", none⟩ ∧
    validate_add_link store "https://example.com/x" true "ab" =
      .fail ⟨none, some "TooShort"⟩ :=
  ⟨rfl, rfl⟩

/-- C6: each facade operation issues exactly one request, at its own
endpoint — `POST api/links`, `POST api/validate/add_link`, `GET api/links`,
`GET api/links/{key}`, `DELETE api/links/{key}` — and the five endpoints are
pairwise distinct, so no operation touches another operation's endpoint. -/
theorem facade_endpoints (key : String) :
    add_link_request = ⟨.post, "api/links"⟩ ∧
    validate_add_link_request = ⟨.post, "api/validate/add_link"⟩ ∧
    get_links_request = ⟨.get, "api/links"⟩ ∧
    get_link_request key = ⟨.get, "api/links/" ++ key⟩ ∧
    delete_link_request key = ⟨.delete, "api/links/" ++ key⟩ ∧
    add_link_request ≠ validate_add_link_request ∧
    add_link_request ≠ get_links_request ∧
    add_link_request ≠ get_link_request key ∧
    add_link_request ≠ delete_link_request key ∧
    validate_add_link_request ≠ get_links_request ∧
    validate_add_link_request ≠ get_link_request key ∧
    validate_add_link_request ≠ delete_link_request key ∧
    get_links_request ≠ get_link_request key ∧
    get_links_request ≠ delete_link_request key ∧
    get_link_request key ≠ delete_link_request key := by
  have hmethod : ∀ (m₁ m₂ : Method) (p₁ p₂ : String), m₁ ≠ m₂ →
      (⟨m₁, p₁⟩ : Request) ≠ ⟨m₂, p₂⟩ := by
    intro m₁ m₂ p₁ p₂ hne h
    exact hne (congrArg Request.method h)
  have h10 : ("api/links/" : String).length = 10 := rfl
  have hlen : ("api/links/" ++ key).length = 10 + key.length := by
    rw [String.length_append, h10]
  have hpath : ("api/links" : String) ≠ "api/links/" ++ key := by
    intro h
    have h9 := congrArg String.length h
    rw [hlen] at h9
    have : ("api/links" : String).length = 9 := rfl
    omega
  refine ⟨rfl, rfl, rfl, rfl, rfl, by decide, by decide, ?_, ?_, by decide,
    ?_, ?_, ?_, ?_, ?_⟩
  · exact hmethod .post .get _ _ (by decide)
  · exact hmethod .post .delete _ _ (by decide)
  · exact hmethod .post .get _ _ (by decide)
  · exact hmethod .post .delete _ _ (by decide)
  · intro h
    exact hpath (congrArg Request.path h)
  · exact hmethod .get .delete _ _ (by decide)
  · exact hmethod .get .delete _ _ (by decide)

/-- C7 counterexample: from a reachable store that already holds the key
"abc", two further add calls both requesting the custom key "abc" both
receive `KeyTaken` — neither succeeds, so it is not the case that for every
pair of same-key add calls exactly one succeeds. -/
theorem add_same_key_both_key_taken :
    ReachableStore (server_add_link [] "a.bc" (some "abc") [] ⟨0, "", ""⟩).1 ∧
    (server_add_link (server_add_link [] "a.bc" (some "abc") [] ⟨0, "", ""⟩).1
        "a.bc" (some "abc") [] ⟨0, "", ""⟩).2 = .fail ⟨none, some "KeyTaken"⟩ ∧
    (server_add_link (server_add_link (server_add_link [] "a.bc" (some "abc")
        [] ⟨0, "", ""⟩).1 "a.bc" (some "abc") [] ⟨0, "", ""⟩).1
        "a.bc" (some "abc") [] ⟨0, "", ""⟩).2 = .fail ⟨none, some "KeyTaken"⟩ :=
  ⟨ReachableStore.add "a.bc" (some "abc") [] ⟨0, "", ""⟩ ReachableStore.init,
   by decide, by decide⟩

/-- C7 amended: every reachable store state has at most one live entry per
key, and for a pair of add calls requesting the same custom key that is
syntactically valid and not yet taken, the first succeeds and the second
receives `KeyTaken`. -/
theorem store_key_uniqueness :
    (∀ s : List Entry, ReachableStore s → (s.map Entry.key).Nodup) ∧
    (∀ (s : List Entry) (k l₁ l₂ : String) (g₁ g₂ : List String)
        (m₁ m₂ : Metadata),
      keyFieldError s k = none → linkFieldError l₁ = none →
      linkFieldError l₂ = none →
      (∃ d, (server_add_link s l₁ (some k) g₁ m₁).2 = .success d) ∧
      (server_add_link (server_add_link s l₁ (some k) g₁ m₁).1 l₂ (some k)
        g₂ m₂).2 = .fail ⟨none, some "KeyTaken"⟩) := by
  constructor
  · exact reachable_keys_nodup
  · intro s k l₁ l₂ g₁ g₂ m₁ m₂ hk hl₁ hl₂
    have h₁ : server_add_link s l₁ (some k) g₁ m₁ =
        (s ++ [⟨k, l₁, m₁⟩], .success ⟨k, ⟨k, l₁, m₁⟩⟩) := by
      simp [server_add_link, hl₁, hk]
    have h₂ : keyFieldError (s ++ [⟨k, l₁, m₁⟩]) k = some "KeyTaken" := by
      obtain ⟨hlenk, hchars, -⟩ := keyFieldError_eq_none_iff.mp hk
      unfold keyFieldError
      rw [if_neg (by omega), if_neg (by simp [hchars]),
        if_pos (by simp [List.map_append])]
    refine ⟨⟨_, by rw [h₁]⟩, ?_⟩
    rw [h₁]
    simp [server_add_link, hl₂, h₂]

/-- Witness for `store_key_uniqueness`: the empty start state has distinct
keys, and two adds of the fresh valid key "abc" from it — first one
succeeds, second receives `KeyTaken`. -/
theorem store_key_uniqueness_witness :
    (([] : List Entry).map Entry.key).Nodup ∧
    (∃ d, (server_add_link [] "a.bc" (some "abc") [] ⟨0, "", ""⟩).2 = .success d) ∧
    (server_add_link (server_add_link [] "a.bc" (some "abc") [] ⟨0, "", ""⟩).1
        "a.bc" (some "abc") [] ⟨0, "", ""⟩).2 = .fail ⟨none, some "KeyTaken"⟩ :=
  ⟨store_key_uniqueness.1 [] ReachableStore.init,
   store_key_uniqueness.2 [] "abc" "a.bc" "a.bc" [] [] ⟨0, "", ""⟩ ⟨0, "", ""⟩
     (by decide) (by decide) (by decide)⟩

/-- C8: with the custom flag off, both add_link and validate_add_link marshal
the `key` field as absent whatever the typed key text, and consequently no
fail response of either operation carries a key field error. -/
theorem non_custom_omits_key (link customName : String) (store : List Entry) :
    add_link_body link false customName = ⟨link, none⟩ ∧
    validate_add_link_body link false customName = ⟨link, none⟩ ∧
    (∀ f, validate_add_link store link false customName = .fail f →
      f.key = none) ∧
    (∀ (gen : List String) (meta : Metadata) (f : AddLinkFailData),
      (server_add_link store link none gen meta).2 = .fail f → f.key = none) := by
  refine ⟨rfl, rfl, ?_, ?_⟩
  · intro f hf
    cases hle : linkFieldError link with
    | none =>
      simp [validate_add_link, server_validate_add_link, hle] at hf
    | some e =>
      simp [validate_add_link, server_validate_add_link, hle] at hf
      rw [← hf]
  · intro gen meta f hf
    cases hle : linkFieldError link with
    | some e =>
      simp [server_add_link, hle] at hf
      rw [← hf]
    | none =>
      cases hfind : gen.find? (fun g => decide (g ∉ store.map Entry.key)) with
      | some k =>
        simp only [server_add_link, hle] at hf
        rw [hfind] at hf
        simp at hf
      | none =>
        simp only [server_add_link, hle] at hf
        rw [hfind] at hf
        simp at hf

/-- Witness for `non_custom_omits_key`: the empty link with custom flag off
and junk key text "UP!" — the marshalled body has no key, and the fail
response attributes no key error. -/
theorem non_custom_omits_key_witness :
    add_link_body "" false "UP!" = ⟨"", none⟩ ∧
    (⟨some "Empty", none⟩ : AddLinkFailData).key = none :=
  ⟨(non_custom_omits_key "" "UP!" []).1,
   (non_custom_omits_key "" "UP!" []).2.2.1 ⟨some "Empty", none⟩ (by decide)⟩

end Landmower
